import Mathlib

/-!
Verification of the decentered-events-tracker event pipeline.

This development shallowly embeds the event normalization and formatting
pipeline of the repository: `src/handlers/lib/events.ts` (normalizeEvent),
`src/handlers/lib/sheets.ts` (field formatters, row formatter, and the
batch aggregator `addEventsToSpreadsheet`) and the per-attachment
spreadsheet-write behaviour of `src/handlers/inbound.ts`
(parseSendgridInbound).

Strings are modelled as Lean `String`/`List Char`; JavaScript `string | null`
fields become `Option String`, with JavaScript truthiness (`null` and `""`
are falsy) modelled explicitly.  Regular-expression searches from the source
are implemented as explicit leftmost-match scanners with the same greedy
semantics.  `toUpperCase`/`toLowerCase` are modelled on the ASCII range, the
only range the pipeline's inputs use.
-/

/-- JavaScript truthiness of a `string | null` value: `null` and `""` are falsy. -/
def jsTruthy : Option String → Bool
  | none => false
  | some s => !(s = "")

/-- JavaScript `a || b` on `string | null` values: returns `a` when truthy, else `b`. -/
def jsOr (a b : Option String) : Option String :=
  if jsTruthy a then a else b

/-- JavaScript `a || d` where the default `d` is a plain string (used for
`s3Url || ''` and similar). -/
def jsOrD (a : Option String) (d : String) : String :=
  match a with
  | none => d
  | some s => if s = "" then d else s

/-- The `Event` interface shared by `events.ts` and `sheets.ts`. -/
structure Event where
  title : String
  address : String
  location : String
  type : String
  startDay : Option String
  startTime : Option String
  description : String
  cost : Option String
  endDay : Option String
  endTime : Option String
deriving Repr, DecidableEq

/-- ASCII digit test, as used by the regular expressions `\d` in the source. -/
def isDigitChar (c : Char) : Bool := '0' ≤ c && c ≤ '9'

/-- JavaScript `\s` on the ASCII range (space, tab, LF, VT, FF, CR). -/
def isWsChar (c : Char) : Bool :=
  c = ' ' || c = '\t' || c = '\n' || c = '\x0b' || c = '\x0c' || c = '\r'

/-- JavaScript `String.prototype.trim` (ASCII whitespace). -/
def jsTrim (cs : List Char) : List Char :=
  (((cs.dropWhile isWsChar).reverse).dropWhile isWsChar).reverse

/-- ASCII `toUpperCase` on a character. -/
def toUpperChar (c : Char) : Char :=
  if 'a' ≤ c && c ≤ 'z' then Char.ofNat (c.toNat - 32) else c

/-- ASCII `toLowerCase` on a character. -/
def toLowerChar (c : Char) : Char :=
  if 'A' ≤ c && c ≤ 'Z' then Char.ofNat (c.toNat + 32) else c

/-- Numeric value of a digit string, as produced by `Number.parseInt` on a
string of decimal digits. -/
def parseIntChars (ds : List Char) : Nat :=
  ds.foldl (fun n c => n * 10 + (c.toNat - 48)) 0

/-- Decimal rendering of a natural number, as produced by JavaScript string
interpolation of a number. -/
def natToChars (n : Nat) : List Char := (Nat.repr n).data

/-!
`date-fns` `parse(s, 'HH:mm', referenceDate)`: the `HH` token consumes one or
two digits and requires an hour value between 0 and 23, then the literal `:`,
then `mm` consumes one or two digits with a minute value between 0 and 59;
any leftover characters make the parse fail (Invalid Date).
-/

/-- `date-fns` parse of a time string against the pattern `HH:mm`, returning
hours and minutes on success.  Fails on leftover input and on out-of-range
values, like the library. -/
def parseHHmm (s : String) : Option (Nat × Nat) :=
  match s.data with
  | c1 :: rest =>
    if isDigitChar c1 then
      let hrRest : Nat × List Char :=
        match rest with
        | c2 :: rest2 =>
          if isDigitChar c2 then ((c1.toNat - 48) * 10 + (c2.toNat - 48), rest2)
          else (c1.toNat - 48, rest)
        | [] => (c1.toNat - 48, rest)
      let h := hrRest.1
      if h ≤ 23 then
        match hrRest.2 with
        | ':' :: mrest =>
          match mrest with
          | d1 :: mrest2 =>
            if isDigitChar d1 then
              let mnRest : Nat × List Char :=
                match mrest2 with
                | d2 :: mrest3 =>
                  if isDigitChar d2 then ((d1.toNat - 48) * 10 + (d2.toNat - 48), mrest3)
                  else (d1.toNat - 48, mrest2)
                | [] => (d1.toNat - 48, mrest2)
              if mnRest.1 ≤ 59 && mnRest.2.isEmpty then some (h, mnRest.1) else none
            else none
          | [] => none
        | _ => none
      else none
    else none
  | [] => none

/-- `date-fns` `format(d, 'HH:mm')`: zero-padded 24-hour clock rendering of a
time given in minutes since midnight (already reduced modulo one day). -/
def formatHHmmOfMinutes (t : Nat) : String :=
  let h := t / 60
  let m := t % 60
  String.mk [Nat.digitChar (h / 10), Nat.digitChar (h % 10), ':',
             Nat.digitChar (m / 10), Nat.digitChar (m % 10)]

/-- The `endTime` computation of `normalizeEvent` (`events.ts`): when `endTime`
is falsy and `startTime` is truthy, parse `startTime` as `HH:mm`, add three
hours (wrapping past midnight) and render as `HH:mm`; if parsing fails the
original `endTime` is kept (the catch block).  Otherwise `endTime` is kept. -/
def normEndTime (endTime startTime : Option String) : Option String :=
  if !jsTruthy endTime && jsTruthy startTime then
    match parseHHmm (startTime.getD "") with
    | some (h, m) => some (formatHHmmOfMinutes ((h * 60 + m + 180) % 1440))
    | none => endTime
  else endTime

/-- `normalizeEvent` from `src/handlers/lib/events.ts`. -/
def normalizeEvent (event : Event) : Event :=
  let endTime := normEndTime event.endTime event.startTime
  { event with
    startDay := jsOr event.startDay event.endDay
    startTime := jsOr event.startTime event.endTime
    endDay := jsOr event.endDay event.startDay
    endTime := endTime }

/-!
Field formatters from `src/handlers/lib/sheets.ts`.
-/

/-- Match `\d{1,2}:\d{2}` at the head of the input with JavaScript regex
semantics (greedy two-digit hour, backtracking to one digit).  Returns the
hour digits, the minute digits and the rest of the input. -/
def matchHMM (cs : List Char) : Option (List Char × List Char × List Char) :=
  match cs with
  | [] => none
  | c1 :: rest1 =>
    if isDigitChar c1 then
      match rest1 with
      | c2 :: rest2 =>
        if isDigitChar c2 then
          match matchColonMM rest2 with
          | some (mm, rest) => some ([c1, c2], mm, rest)
          | none =>
            match matchColonMM rest1 with
            | some (mm, rest) => some ([c1], mm, rest)
            | none => none
        else
          match matchColonMM rest1 with
          | some (mm, rest) => some ([c1], mm, rest)
          | none => none
      | [] => none
    else none
where
  /-- Match `:` followed by exactly two digits. -/
  matchColonMM (cs : List Char) : Option (List Char × List Char) :=
    match cs with
    | ':' :: c3 :: c4 :: rest =>
      if isDigitChar c3 && isDigitChar c4 then some ([c3, c4], rest) else none
    | _ => none

/-- Match the tail `\s*(AM|PM)` (case-insensitive) of the pattern
`\d{1,2}:\d{2}\s*(AM|PM)` after the minutes. -/
def matchAmPmTail (cs : List Char) : Bool :=
  match cs.dropWhile isWsChar with
  | a :: m :: _ =>
    (a = 'A' || a = 'a' || a = 'P' || a = 'p') && (m = 'M' || m = 'm')
  | _ => false

/-- Match the full pattern `\d{1,2}:\d{2}\s*(AM|PM)` (case-insensitive) at the
head of the input. -/
def matchTimeAmPmAt (cs : List Char) : Bool :=
  match matchHMM cs with
  | some (_, _, rest) => matchAmPmTail rest
  | none => false

/-- JavaScript `time.match(/\d{1,2}:\d{2}\s*(AM|PM)/i)` viewed as a Boolean:
does the pattern occur anywhere in the input? -/
def containsTimeAmPm : List Char → Bool
  | [] => false
  | c :: rest => matchTimeAmPmAt (c :: rest) || containsTimeAmPm rest

/-- JavaScript `time.match(/(\d{1,2}):(\d{2})/)`: the leftmost match of the
24-hour pattern, with the captured hour and minute digit groups. -/
def searchHMM : List Char → Option (List Char × List Char × List Char)
  | [] => none
  | c :: rest =>
    match matchHMM (c :: rest) with
    | some r => some r
    | none => searchHMM rest

/-- `formatTime` from `src/handlers/lib/sheets.ts`: null becomes `""`; a string
containing a 12-hour `H:MM AM/PM` pattern is trimmed and uppercased; otherwise
the first `H:MM` occurrence is converted to 12-hour `H:MM AM/PM`; otherwise the
trimmed string is returned. -/
def formatTime (timeString : Option String) : String :=
  match timeString with
  | none => ""
  | some ts =>
    let time := jsTrim ts.data
    if containsTimeAmPm time then String.mk (time.map toUpperChar)
    else
      match searchHMM time with
      | some (hd, mm, _) =>
        let hours := parseIntChars hd
        let ampm : List Char := if 12 ≤ hours then ['P', 'M'] else ['A', 'M']
        let hours' := if hours = 0 then 12 else if 12 < hours then hours - 12 else hours
        String.mk (natToChars hours' ++ ':' :: (mm ++ ' ' :: ampm))
      | none => String.mk time

/-- Take the maximal run of leading digits (the greedy `\d+`). -/
def takeDigits : List Char → List Char × List Char
  | [] => ([], [])
  | c :: rest =>
    if isDigitChar c then
      let (ds, r) := takeDigits rest
      (c :: ds, r)
    else ([], c :: rest)

/-- Match `\d+(?:\.\d{2})?` at the head of the input, returning the matched
characters. -/
def matchNumAt (cs : List Char) : Option (List Char) :=
  match cs with
  | [] => none
  | c :: rest =>
    if isDigitChar c then
      let (ds, r) := takeDigits rest
      match r with
      | '.' :: d1 :: d2 :: _ =>
        if isDigitChar d1 && isDigitChar d2 then
          some (c :: ds ++ '.' :: d1 :: d2 :: [])
        else some (c :: ds)
      | _ => some (c :: ds)
    else none

/-- JavaScript `cost.match(/(\d+(?:\.\d{2})?)/)`: leftmost match of the
numeric pattern. -/
def searchNum : List Char → Option (List Char)
  | [] => none
  | c :: rest =>
    match matchNumAt (c :: rest) with
    | some r => some r
    | none => searchNum rest

/-- `formatCost` from `src/handlers/lib/sheets.ts`: null (or empty) becomes
`"Free"`; the lowercased trimmed string is compared against `free`, `0`, `$0`;
a string whose lowercased trimmed form starts with `$` is returned verbatim;
otherwise the first numeric substring is prefixed with `$`; otherwise the
original string is returned. -/
def formatCost (costString : Option String) : String :=
  match costString with
  | none => "Free"
  | some cs0 =>
    if cs0 = "" then "Free"
    else
      let cost := jsTrim (cs0.data.map toLowerChar)
      if cost = "free".data || cost = "0".data || cost = "$0".data then "Free"
      else if (match cost with | '$' :: _ => true | _ => false) then cs0
      else
        match searchNum cost with
        | some num => String.mk ('$' :: num)
        | none => cs0

/-- Parse an ISO `YYYY-MM-DD` date string.  This models the successful branch
of JavaScript `new Date(dateString)` for the ISO calendar dates the extraction
collaborator produces; all other inputs are treated as unparseable (the
`Number.isNaN` branch of the source).  Timezone effects of `new Date` are
outside the model; no claim depends on them. -/
def parseISODate (s : String) : Option (Nat × Nat × Nat) :=
  match s.data with
  | [y1, y2, y3, y4, '-', m1, m2, '-', d1, d2] =>
    if isDigitChar y1 && isDigitChar y2 && isDigitChar y3 && isDigitChar y4 &&
       isDigitChar m1 && isDigitChar m2 && isDigitChar d1 && isDigitChar d2 then
      let y := parseIntChars [y1, y2, y3, y4]
      let m := parseIntChars [m1, m2]
      let d := parseIntChars [d1, d2]
      if 1 ≤ m && m ≤ 12 && 1 ≤ d && d ≤ 31 then some (y, m, d) else none
    else none
  | _ => none

/-- Zero-padded two-digit rendering (`String(x).padStart(2, '0')`). -/
def pad2 (n : Nat) : List Char := [Nat.digitChar (n / 10 % 10), Nat.digitChar (n % 10)]

/-- `formatDate` from `src/handlers/lib/sheets.ts`: null becomes `""`, an
unparseable string is returned unchanged, a parsed date is rendered as
`MM/DD/YYYY`. -/
def formatDate (dateString : Option String) : String :=
  match dateString with
  | none => ""
  | some s =>
    if s = "" then ""
    else
      match parseISODate s with
      | none => s
      | some (y, m, d) => String.mk (pad2 m ++ '/' :: pad2 d ++ '/' :: natToChars y)

/-- The `FormattedEventRow` interface of `sheets.ts`. -/
structure FormattedEventRow where
  date : String
  eventName : String
  type : String
  startTime : String
  endTime : String
  location : String
  address : String
  description : String
  cost : String
  link : String
deriving Repr, DecidableEq

/-- `formatEventForSpreadsheet` from `src/handlers/lib/sheets.ts`. -/
def formatEventForSpreadsheet (event : Event) (s3Url : String) : FormattedEventRow :=
  { date := formatDate event.startDay
    eventName := event.title
    type := event.type
    startTime := formatTime event.startTime
    endTime := formatTime event.endTime
    location := event.location
    address := event.address
    description := event.description
    cost := formatCost event.cost
    link := s3Url }

/-- The array-of-arrays conversion applied to each formatted row before the
append call (`rows = allFormattedEvents.map(event => [...])`). -/
def rowToList (r : FormattedEventRow) : List String :=
  [r.date, r.eventName, r.type, r.startTime, r.endTime, r.location, r.address,
   r.description, r.cost, r.link]

/-- One element of the `eventGroups` argument of the batch
`addEventsToSpreadsheet`: the events of one attachment together with its
optional storage URL. -/
structure EventGroup where
  events : List Event
  s3Url : Option String
deriving Repr, DecidableEq

/-- The flattening loop of the batch `addEventsToSpreadsheet`: groups with an
empty event list are skipped, the others contribute their events formatted
with the group's `s3Url || ''`, in order. -/
def flattenGroups : List EventGroup → List FormattedEventRow
  | [] => []
  | g :: rest =>
    (if g.events.length = 0 then []
     else g.events.map (fun e => formatEventForSpreadsheet e (jsOrD g.s3Url ""))) ++
    flattenGroups rest

/-- Observable outcome of one `addEventsToSpreadsheet` call. -/
inductive SheetsOutcome where
  /-- Early return: `eventGroups` was empty. -/
  | noGroups : SheetsOutcome
  /-- Early return: every group's event list was empty. -/
  | noEvents : SheetsOutcome
  /-- `GOOGLE_SPREADSHEET_ID` not set: the call throws. -/
  | configError : SheetsOutcome
  /-- One `spreadsheets.values.append` call carrying these rows. -/
  | appended (rows : List (List String)) : SheetsOutcome
deriving Repr, DecidableEq

/-- The batch `addEventsToSpreadsheet(eventGroups)` from
`src/handlers/lib/sheets.ts`, as a function of the (optional)
`GOOGLE_SPREADSHEET_ID` environment value and the groups. -/
def addEventsToSpreadsheet (spreadsheetId : Option String)
    (eventGroups : List EventGroup) : SheetsOutcome :=
  if eventGroups.length = 0 then .noGroups
  else
    let allFormattedEvents := flattenGroups eventGroups
    if allFormattedEvents.length = 0 then .noEvents
    else if !jsTruthy spreadsheetId then .configError
    else .appended (allFormattedEvents.map rowToList)

/-- Observable actions of one batch `addEventsToSpreadsheet` call, in program
order.  `formatEvent` records one `formatEventForSpreadsheet` invocation. -/
inductive SheetsAction where
  | logNoGroups : SheetsAction
  | logNoEvents : SheetsAction
  | formatEvent (e : Event) (ref : String) : SheetsAction
  | configError : SheetsAction
  | append (rows : List (List String)) : SheetsAction
deriving Repr, DecidableEq

/-- The formatting actions of the flattening loop, in order. -/
def formatActions : List EventGroup → List SheetsAction
  | [] => []
  | g :: rest =>
    (if g.events.length = 0 then []
     else g.events.map (fun e => SheetsAction.formatEvent e (jsOrD g.s3Url ""))) ++
    formatActions rest

/-- Trace of one batch `addEventsToSpreadsheet` call: the formatting loop runs
first, and only afterwards is `GOOGLE_SPREADSHEET_ID` read and checked. -/
def addEventsToSpreadsheetTrace (spreadsheetId : Option String)
    (eventGroups : List EventGroup) : List SheetsAction :=
  if eventGroups.length = 0 then [.logNoGroups]
  else
    let fmts := formatActions eventGroups
    if (flattenGroups eventGroups).length = 0 then fmts ++ [.logNoEvents]
    else if !jsTruthy spreadsheetId then fmts ++ [.configError]
    else fmts ++ [.append ((flattenGroups eventGroups).map rowToList)]

/-- The older single-list `addEventsToSpreadsheet(events, s3Url?)` of
`src/handlers/lib/sheets.ts`, the signature the inbound handler calls. -/
def addEventsToSpreadsheetSingle (spreadsheetId : Option String)
    (events : List Event) (s3Url : Option String) : SheetsOutcome :=
  if events.length = 0 then .noEvents
  else if !jsTruthy spreadsheetId then .configError
  else .appended ((events.map (fun e => formatEventForSpreadsheet e (jsOrD s3Url ""))).map rowToList)

/-- One attachment of an inbound request, reduced to what determines its
spreadsheet writes in `parseSendgridInbound` (`src/handlers/inbound.ts`):
the result of `extractEvents` (`none` models a thrown extraction error, which
the per-attachment `catch` swallows) and the attachment's `s3Url` side-channel
value at formatting time. -/
structure InboundAttachment where
  extraction : Option (List Event)
  s3Url : Option String
deriving Repr, DecidableEq

/-- Number of destination append operations performed for one attachment by
`parseSendgridInbound`: when extraction succeeds with a non-empty event list,
the handler awaits `addEventsToSpreadsheet(events.events, attachment.s3Url)`,
which issues one append when the destination is configured. -/
def attachmentAppendCount (spreadsheetId : Option String)
    (a : InboundAttachment) : Nat :=
  match a.extraction with
  | none => 0
  | some evs =>
    if 0 < evs.length then
      match addEventsToSpreadsheetSingle spreadsheetId evs a.s3Url with
      | .appended _ => 1
      | _ => 0
    else 0

/-- Total number of destination append operations one inbound request
triggers in `parseSendgridInbound`: the per-attachment tasks each issue their
own spreadsheet call. -/
def inboundAppendCount (spreadsheetId : Option String)
    (attachments : List InboundAttachment) : Nat :=
  (attachments.map (attachmentAppendCount spreadsheetId)).sum

/-!
Claim-side definitions: the hour conversion and the output shape asserted by
the specification for `formatTime`, and concrete sample data used by
counterexamples and witnesses.
-/

/-- The hour conversion asserted by the specification for `formatTime`:
hour 0 becomes 12, hours 13 to 23 become hour minus 12, hours 1 to 12 are
unchanged. -/
def convHour (h : Nat) : Nat :=
  if h = 0 then 12 else if 13 ≤ h then h - 12 else h

/-- Whole-string match of the output shape the specification asserts for
converted times: `^\d{1,2}:\d{2} (AM|PM)$`. -/
def outTimePattern (s : String) : Bool :=
  match s.data with
  | [c1, ':', c3, c4, ' ', a, 'M'] =>
    isDigitChar c1 && isDigitChar c3 && isDigitChar c4 && (a = 'A' || a = 'P')
  | [c1, c2, ':', c3, c4, ' ', a, 'M'] =>
    isDigitChar c1 && isDigitChar c2 && isDigitChar c3 && isDigitChar c4 &&
      (a = 'A' || a = 'P')
  | _ => false

/-- A minimal event (only a title, everything else absent or empty). -/
def evBlank : Event :=
  { title := "E", address := "", location := "", type := "", startDay := none,
    startTime := none, description := "", cost := none, endDay := none, endTime := none }

/-- Event whose `endTime` is the empty string and whose `startTime` parses. -/
def evEmptyEnd : Event := { evBlank with startTime := some "14:30", endTime := some "" }

/-- Event whose `startTime` is a non-empty unparseable string and whose
`endTime` is null. -/
def evBadStart : Event := { evBlank with startTime := some "abc" }

/-- A fully populated consistent event. -/
def evFull : Event :=
  { title := "Event 1", address := "1 Main St", location := "San Francisco",
    type := "Music", startDay := some "2025-03-15", startTime := some "19:00",
    description := "d", cost := some "$20", endDay := some "2025-03-15",
    endTime := some "22:00" }

/-- Second sample event. -/
def evFull2 : Event := { evFull with title := "Event 2" }

/-- Third sample event. -/
def evFull3 : Event := { evFull with title := "Event 3" }

/-- The three-group batch of the specification's aggregator example. -/
def exampleGroups : List EventGroup :=
  [{ events := [evFull, evFull2], s3Url := some "r1" },
   { events := [], s3Url := some "r2" },
   { events := [evFull3], s3Url := some "r3" }]

/-!
Helper lemmas shared by the claim theorems.
-/

lemma formatHHmmOfMinutes_ne_empty (t : Nat) : formatHHmmOfMinutes t ≠ "" := by
  intro h
  have : (formatHHmmOfMinutes t).data = [] := by rw [h]
  simp [formatHHmmOfMinutes] at this

lemma normEndTime_ne_none (st : Option String) (t : String) :
    normEndTime (some t) st ≠ none := by
  unfold normEndTime
  split
  · rcases hp : parseHHmm (st.getD "") with _ | p <;> simp [hp]
  · simp

lemma days_fix (a b : Option String)
    (h : (a = none ∧ b = none) ∨ (a ≠ none ∧ b ≠ none)) :
    jsOr (jsOr a b) (jsOr b a) = jsOr a b ∧ jsOr (jsOr b a) (jsOr a b) = jsOr b a := by
  rcases h with ⟨rfl, rfl⟩ | ⟨ha, hb⟩
  · simp [jsOr, jsTruthy]
  · rcases a with _ | s
    · exact absurd rfl ha
    rcases b with _ | t
    · exact absurd rfl hb
    by_cases hs : s = "" <;> by_cases ht : t = "" <;>
      simp [jsOr, jsTruthy, hs, ht]

lemma times_fix (st et : Option String)
    (h : (st = none ∧ et = none) ∨ et ≠ none) :
    normEndTime (normEndTime et st) (jsOr st et) = normEndTime et st ∧
    jsOr (jsOr st et) (normEndTime et st) = jsOr st et := by
  rcases h with ⟨rfl, rfl⟩ | het
  · simp [normEndTime, jsOr, jsTruthy]
  rcases et with _ | t
  · exact absurd rfl het
  by_cases htt : t = ""
  · subst htt
    rcases st with _ | s
    · simp [normEndTime, jsOr, jsTruthy]
    by_cases hss : s = ""
    · subst hss
      simp [normEndTime, jsOr, jsTruthy]
    rcases hp : parseHHmm s with _ | p
    · simp [normEndTime, jsOr, jsTruthy, hss, hp]
    · obtain ⟨hh, mm⟩ := p
      simp [normEndTime, jsOr, jsTruthy, hss, hp, formatHHmmOfMinutes_ne_empty]
  · rcases st with _ | s
    · simp [normEndTime, jsOr, jsTruthy, htt]
    by_cases hss : s = "" <;> simp [normEndTime, jsOr, jsTruthy, htt, hss]

lemma flattenGroups_eq_join (groups : List EventGroup) :
    flattenGroups groups =
      (groups.map (fun g =>
        g.events.map (fun e => formatEventForSpreadsheet e (jsOrD g.s3Url "")))).flatten := by
  induction groups with
  | nil => rfl
  | cons g rest ih =>
    simp only [flattenGroups, List.map_cons, List.flatten_cons, ih]
    by_cases h : g.events.length = 0
    · simp [h, List.length_eq_zero.mp h]
    · simp [h]

lemma flattenGroups_ne_nil {groups : List EventGroup}
    (h : ∃ g ∈ groups, g.events ≠ []) : flattenGroups groups ≠ [] := by
  induction groups with
  | nil => simp at h
  | cons g rest ih =>
    rcases h with ⟨g', hg', hne⟩
    intro hcontra
    simp only [flattenGroups] at hcontra
    rw [List.append_eq_nil] at hcontra
    rcases List.mem_cons.mp hg' with rfl | hmem
    · have hlen : ¬g'.events.length = 0 := by
        simpa [List.length_eq_zero] using hne
      rw [if_neg hlen] at hcontra
      exact hne (List.map_eq_nil_iff.mp hcontra.1)
    · exact ih ⟨g', hmem, hne⟩ hcontra.2

/-!
Claim theorems.
-/

/-- C3 (code bug): `formatCost(null)` does not return an unknown-cost marker:
the source returns `"Free"` for a null cost, although the repository's own
test suite expects `"Unknown"`. -/
theorem formatCost_null_returns_free :
    formatCost none = "Free" ∧ formatCost none ≠ "Unknown" := by decide

/-- C7 (code bug): `formatCost` compares the lowercased trimmed input against
the exact string `"free"`, so a string merely containing "free" is not mapped
to `"Free"`, contradicting the repository's own test
(`formatCost('Free admission')` is expected to be `'Free'`). -/
theorem formatCost_contains_free_not_mapped :
    formatCost (some "Free admission") = "Free admission" ∧
    formatCost (some "Free admission") ≠ "Free" := by decide

/-- C1 (code bug): an inbound request with two image attachments whose
extractions both succeed with one event each triggers two destination append
operations, not one: `parseSendgridInbound` awaits `addEventsToSpreadsheet`
separately inside each attachment's task. -/
theorem inbound_two_attachments_two_appends :
    inboundAppendCount (some "sheet-id")
        [{ extraction := some [evBlank], s3Url := none },
         { extraction := some [evBlank], s3Url := none }] = 2 ∧
    inboundAppendCount (some "sheet-id")
        [{ extraction := some [evBlank], s3Url := none },
         { extraction := some [evBlank], s3Url := none }] ≠ 1 := by decide

/-- C10: `normalizeEvent` changes only the four temporal fields; `title`,
`address`, `location`, `type`, `description` and `cost` are returned
unchanged. -/
theorem normalizeEvent_frame (e : Event) :
    (normalizeEvent e).title = e.title ∧
    (normalizeEvent e).address = e.address ∧
    (normalizeEvent e).location = e.location ∧
    (normalizeEvent e).type = e.type ∧
    (normalizeEvent e).description = e.description ∧
    (normalizeEvent e).cost = e.cost := by
  cases e
  simp [normalizeEvent]

/-- C4 (counterexample): `normalizeEvent` does not preserve a non-null
`endTime` verbatim when it is the empty string: JavaScript treats `""` as
falsy, so the three-hour rule overwrites it. -/
theorem normalizeEvent_endTime_verbatim_cex :
    evEmptyEnd.endTime = some "" ∧
    (normalizeEvent evEmptyEnd).endTime = some "17:30" ∧
    (normalizeEvent evEmptyEnd).endTime ≠ evEmptyEnd.endTime := by decide

/-- C4 (amended): `normalizeEvent` preserves `endTime` verbatim when it is
non-null and non-empty; when `endTime` is null or empty and `startTime`
parses as 24-hour `HH:mm`, it sets `endTime` to `startTime` plus three hours,
wrapping past midnight, rendered in 24-hour `HH:mm` (`23:00` yields `02:00`
and `14:30` yields `17:30`); when both `startTime` and `endTime` are null,
both remain null. -/
theorem normalizeEvent_endTime_spec (e : Event) :
    (∀ t, e.endTime = some t → t ≠ "" → (normalizeEvent e).endTime = some t) ∧
    (jsTruthy e.endTime = false →
      ∀ s h m, e.startTime = some s → parseHHmm s = some (h, m) →
        (normalizeEvent e).endTime =
          some (formatHHmmOfMinutes ((h * 60 + m + 180) % 1440))) ∧
    (e.startTime = none → e.endTime = none →
      (normalizeEvent e).startTime = none ∧ (normalizeEvent e).endTime = none) ∧
    (e.startTime = some "23:00" → e.endTime = none →
      (normalizeEvent e).endTime = some "02:00") ∧
    (e.startTime = some "14:30" → e.endTime = none →
      (normalizeEvent e).endTime = some "17:30") := by
  have hproj : (normalizeEvent e).endTime = normEndTime e.endTime e.startTime := rfl
  have hprojS : (normalizeEvent e).startTime = jsOr e.startTime e.endTime := rfl
  refine ⟨?_, ?_, ?_, ?_, ?_⟩
  · intro t het hne
    rw [hproj, het]
    simp [normEndTime, jsTruthy, hne]
  · intro hfalsy s h m hst hp
    have hs : s ≠ "" := by
      intro hs0
      rw [hs0] at hp
      simp [parseHHmm] at hp
    have hstruthy : jsTruthy (some s) = true := by simp [jsTruthy, hs]
    rw [hproj, hst]
    simp [normEndTime, hfalsy, hstruthy, hp]
  · intro hst het
    rw [hprojS, hproj, hst, het]
    simp [normEndTime, jsOr, jsTruthy]
  · intro hst het
    rw [hproj, hst, het]
    decide
  · intro hst het
    rw [hproj, hst, het]
    decide

/-- C4 (witness): the amended endTime specification instantiated on concrete
events. -/
theorem normalizeEvent_endTime_spec_witness :
    (evFull.endTime = some "22:00" ∧ (normalizeEvent evFull).endTime = some "22:00") ∧
    (jsTruthy evBlank.endTime = false ∧ evBlank.startTime = none) ∧
    ({ evBlank with startTime := some "23:00" } : Event).startTime = some "23:00" ∧
    (normalizeEvent { evBlank with startTime := some "23:00" }).endTime = some "02:00" :=
  ⟨⟨by decide, (normalizeEvent_endTime_spec evFull).1 "22:00" (by decide) (by decide)⟩,
   ⟨by decide, by decide⟩,
   by decide,
   (normalizeEvent_endTime_spec { evBlank with startTime := some "23:00" }).2.2.2.1
     (by decide) (by decide)⟩

/-- C8 (counterexample): the claimed post-normalization invariant fails for an
event with `startTime = "abc"` and `endTime = null`: parsing fails, so the
normalized event has a non-null `startTime` and a null `endTime`. -/
theorem normalizeEvent_invariant_cex :
    ¬((((normalizeEvent evBadStart).startTime = none ∧
        (normalizeEvent evBadStart).endTime = none) ∨
       (normalizeEvent evBadStart).endTime ≠ none)) := by decide

/-- C8 (amended): for every event in which it is not the case that exactly one
of `startDay`/`endDay` is the empty string while the other is null, and whose
`startTime`, when `endTime` is null and `startTime` is a non-empty string,
parses as 24-hour `HH:mm`, the normalized event satisfies: `startDay` and
`endDay` are both null, or both non-null and equal unless an explicit end date
was supplied; and `startTime` and `endTime` are both null, or `endTime` is
present. -/
theorem normalizeEvent_invariant (e : Event)
    (hd1 : ¬(e.startDay = some "" ∧ e.endDay = none))
    (hd2 : ¬(e.startDay = none ∧ e.endDay = some ""))
    (ht : e.endTime = none → ∀ s, e.startTime = some s → s ≠ "" →
      (parseHHmm s).isSome) :
    (((normalizeEvent e).startDay = none ∧ (normalizeEvent e).endDay = none) ∨
      ((normalizeEvent e).startDay ≠ none ∧ (normalizeEvent e).endDay ≠ none ∧
        (e.endDay ≠ none ∨ (normalizeEvent e).startDay = (normalizeEvent e).endDay))) ∧
    (((normalizeEvent e).startTime = none ∧ (normalizeEvent e).endTime = none) ∨
      (normalizeEvent e).endTime ≠ none) := by
  have hprojSD : (normalizeEvent e).startDay = jsOr e.startDay e.endDay := rfl
  have hprojED : (normalizeEvent e).endDay = jsOr e.endDay e.startDay := rfl
  have hprojST : (normalizeEvent e).startTime = jsOr e.startTime e.endTime := rfl
  have hprojET : (normalizeEvent e).endTime = normEndTime e.endTime e.startTime := rfl
  constructor
  · rw [hprojSD, hprojED]
    rcases hsd : e.startDay with _ | s
    · rcases hed : e.endDay with _ | t
      · left; simp [jsOr, jsTruthy]
      · have htne : t ≠ "" := by
          intro h0
          exact hd2 ⟨hsd, by rw [hed, h0]⟩
        right
        simp [jsOr, jsTruthy, htne]
    · rcases hed : e.endDay with _ | t
      · have hsne : s ≠ "" := by
          intro h0
          exact hd1 ⟨by rw [hsd, h0], hed⟩
        right
        simp [jsOr, jsTruthy, hsne]
      · right
        refine ⟨?_, ?_, Or.inl (by simp)⟩
        · by_cases hs : s = "" <;> simp [jsOr, jsTruthy, hs]
        · by_cases htc : t = "" <;> simp [jsOr, jsTruthy, htc]
  · rw [hprojST, hprojET]
    rcases het : e.endTime with _ | t
    · rcases hst : e.startTime with _ | s
      · left; simp [normEndTime, jsOr, jsTruthy]
      · by_cases hs : s = ""
        · left
          subst hs
          simp [normEndTime, jsOr, jsTruthy]
        · right
          have hp := ht het s hst hs
          rcases hp2 : parseHHmm s with _ | p
          · rw [hp2] at hp; simp at hp
          · obtain ⟨hh, mm⟩ := p
            simp [normEndTime, jsOr, jsTruthy, hs, hp2]
    · right
      exact normEndTime_ne_none e.startTime t

/-- C8 (witness): the amended invariant instantiated on a concrete event with
a present start day and a parseable start time. -/
theorem normalizeEvent_invariant_witness :
    (¬(evFull.startDay = some "" ∧ evFull.endDay = none)) ∧
    (¬(evFull.startDay = none ∧ evFull.endDay = some "")) ∧
    ((((normalizeEvent evFull).startDay = none ∧ (normalizeEvent evFull).endDay = none) ∨
      ((normalizeEvent evFull).startDay ≠ none ∧ (normalizeEvent evFull).endDay ≠ none ∧
        (evFull.endDay ≠ none ∨ (normalizeEvent evFull).startDay = (normalizeEvent evFull).endDay))) ∧
     (((normalizeEvent evFull).startTime = none ∧ (normalizeEvent evFull).endTime = none) ∨
      (normalizeEvent evFull).endTime ≠ none)) :=
  ⟨by decide, by decide,
   normalizeEvent_invariant evFull (by decide) (by decide)
     (fun h => by rw [show evFull.endTime = some "22:00" from rfl] at h; exact absurd h (by decide))⟩

/-- C9: `normalizeEvent` is idempotent on every event whose `startDay`/`endDay`
pair and `startTime`/`endTime` pair are already mutually consistent (both null
or both present, respectively `endTime` present whenever `startTime` is). -/
theorem normalizeEvent_idempotent (e : Event)
    (hd : (e.startDay = none ∧ e.endDay = none) ∨ (e.startDay ≠ none ∧ e.endDay ≠ none))
    (ht : (e.startTime = none ∧ e.endTime = none) ∨ e.endTime ≠ none) :
    normalizeEvent (normalizeEvent e) = normalizeEvent e := by
  obtain ⟨hd1, hd2⟩ := days_fix e.startDay e.endDay hd
  obtain ⟨ht2, ht1⟩ := times_fix e.startTime e.endTime ht
  cases e
  simp_all [normalizeEvent]

/-- C9 (witness): idempotence instantiated on a concrete consistent event. -/
theorem normalizeEvent_idempotent_witness :
    ((evFull.startDay = none ∧ evFull.endDay = none) ∨
      (evFull.startDay ≠ none ∧ evFull.endDay ≠ none)) ∧
    ((evFull.startTime = none ∧ evFull.endTime = none) ∨ evFull.endTime ≠ none) ∧
    normalizeEvent (normalizeEvent evFull) = normalizeEvent evFull :=
  ⟨by decide, by decide, normalizeEvent_idempotent evFull (by decide) (by decide)⟩

/-- C2 (counterexample): with the destination identifier missing and one
non-empty group, the batch aggregator's first action is a formatting step, not
the configuration check: the configuration error is only raised after the
whole formatting loop. -/
theorem batch_config_check_after_formatting_cex :
    addEventsToSpreadsheetTrace none [{ events := [evBlank], s3Url := none }] =
      [SheetsAction.formatEvent evBlank "", SheetsAction.configError] ∧
    (addEventsToSpreadsheetTrace none [{ events := [evBlank], s3Url := none }]).head? =
      some (SheetsAction.formatEvent evBlank "") := by decide

/-- C2 (amended): for every batch aggregator call in which at least one group
has a non-empty event list and the destination identifier is not configured,
the call fails with a configuration error and performs no append; the
configuration check runs after the per-event formatting work, not before. -/
theorem batch_missing_id_config_error (spreadsheetId : Option String)
    (groups : List EventGroup)
    (hsid : jsTruthy spreadsheetId = false)
    (hne : ∃ g ∈ groups, g.events ≠ []) :
    addEventsToSpreadsheet spreadsheetId groups = SheetsOutcome.configError ∧
    addEventsToSpreadsheetTrace spreadsheetId groups =
      formatActions groups ++ [SheetsAction.configError] := by
  have hgne : groups ≠ [] := by
    rcases hne with ⟨g, hg, _⟩
    intro h0
    rw [h0] at hg
    simp at hg
  have hglen : ¬groups.length = 0 := by simpa [List.length_eq_zero] using hgne
  have hflen : ¬(flattenGroups groups).length = 0 := by
    simpa [List.length_eq_zero] using flattenGroups_ne_nil hne
  constructor
  · simp [addEventsToSpreadsheet, hglen, hflen, hsid]
  · simp [addEventsToSpreadsheetTrace, hglen, hflen, hsid]

/-- C2 (witness): the amended configuration-error behaviour instantiated on a
concrete one-group batch. -/
theorem batch_missing_id_config_error_witness :
    jsTruthy (none : Option String) = false ∧
    (∃ g ∈ [({ events := [evBlank], s3Url := none } : EventGroup)], g.events ≠ []) ∧
    (addEventsToSpreadsheet none [{ events := [evBlank], s3Url := none }] =
        SheetsOutcome.configError ∧
      addEventsToSpreadsheetTrace none [{ events := [evBlank], s3Url := none }] =
        formatActions [{ events := [evBlank], s3Url := none }] ++
          [SheetsAction.configError]) :=
  ⟨by decide, by decide,
   batch_missing_id_config_error none [{ events := [evBlank], s3Url := none }]
     (by decide) (by decide)⟩

/-- C5: for every batch with at least one non-empty group and a configured
destination identifier, the aggregator issues one append whose rows are the
per-group formatted events (each with its group's source reference, empty if
absent), in per-group order, concatenated in group order. -/
theorem addEventsToSpreadsheet_rows_spec (spreadsheetId : Option String)
    (groups : List EventGroup)
    (hsid : jsTruthy spreadsheetId = true)
    (hne : ∃ g ∈ groups, g.events ≠ []) :
    addEventsToSpreadsheet spreadsheetId groups =
      SheetsOutcome.appended
        ((groups.map (fun g => g.events.map
          (fun e => rowToList (formatEventForSpreadsheet e (jsOrD g.s3Url ""))))).flatten) := by
  have hgne : groups ≠ [] := by
    rcases hne with ⟨g, hg, _⟩
    intro h0
    rw [h0] at hg
    simp at hg
  have hglen : ¬groups.length = 0 := by simpa [List.length_eq_zero] using hgne
  have hflen : ¬(flattenGroups groups).length = 0 := by
    simpa [List.length_eq_zero] using flattenGroups_ne_nil hne
  simp only [addEventsToSpreadsheet, if_neg hglen, if_neg hflen, hsid,
    Bool.not_true, Bool.false_eq_true, if_false, if_neg]
  rw [flattenGroups_eq_join, List.map_flatten, List.map_map]
  have hfun : (List.map rowToList ∘ fun g : EventGroup =>
        List.map (fun e => formatEventForSpreadsheet e (jsOrD g.s3Url "")) g.events) =
      (fun g : EventGroup =>
        List.map (fun e => rowToList (formatEventForSpreadsheet e (jsOrD g.s3Url ""))) g.events) := by
    funext g
    simp [Function.comp, List.map_map]
  rw [hfun]

/-- C5 (witness): the aggregator applied to the specification's three-group
example: the append call receives exactly the three rows
`[row(e1,r1), row(e2,r1), row(e3,r3)]` in that order. -/
theorem addEventsToSpreadsheet_rows_spec_witness :
    jsTruthy (some "sheet-id") = true ∧
    (∃ g ∈ exampleGroups, g.events ≠ []) ∧
    addEventsToSpreadsheet (some "sheet-id") exampleGroups =
      SheetsOutcome.appended
        ((exampleGroups.map (fun g => g.events.map
          (fun e => rowToList (formatEventForSpreadsheet e (jsOrD g.s3Url ""))))).flatten) ∧
    (exampleGroups.map (fun g => g.events.map
        (fun e => rowToList (formatEventForSpreadsheet e (jsOrD g.s3Url ""))))).flatten =
      [rowToList (formatEventForSpreadsheet evFull "r1"),
       rowToList (formatEventForSpreadsheet evFull2 "r1"),
       rowToList (formatEventForSpreadsheet evFull3 "r3")] :=
  ⟨by decide, by decide,
   addEventsToSpreadsheet_rows_spec (some "sheet-id") exampleGroups (by decide) (by decide),
   by decide⟩

/-!
Helper lemmas for the `formatTime` specification (C6).
-/

lemma isWsChar_of_digit {c : Char} (h : isDigitChar c = true) : isWsChar c = false := by
  simp only [isDigitChar, Bool.and_eq_true, decide_eq_true_eq] at h
  obtain ⟨h1, h2⟩ := h
  simp only [isWsChar, Bool.or_eq_false_iff, decide_eq_false_iff_not]
  refine ⟨⟨⟨⟨⟨?_, ?_⟩, ?_⟩, ?_⟩, ?_⟩, ?_⟩ <;>
    (rintro rfl; exact absurd h1 (by decide))

lemma dropWhile_all_append {p : Char → Bool} {ws : List Char}
    (h : ws.all p = true) (l : List Char) :
    (ws ++ l).dropWhile p = l.dropWhile p := by
  induction ws with
  | nil => rfl
  | cons w t ih =>
    rw [List.all_cons, Bool.and_eq_true] at h
    rw [List.cons_append, List.dropWhile_cons_of_pos h.1, ih h.2]

lemma jsTrim_cons_concat {c d : Char} (mid : List Char)
    (hc : isWsChar c = false) (hd : isWsChar d = false) :
    jsTrim (c :: (mid ++ [d])) = c :: (mid ++ [d]) := by
  unfold jsTrim
  rw [List.dropWhile_cons_of_neg (by simp [hc])]
  have hrev : (c :: (mid ++ [d])).reverse = d :: (mid.reverse ++ [c]) := by
    simp
  rw [hrev, List.dropWhile_cons_of_neg (by simp [hd]), ← hrev, List.reverse_reverse]

lemma matchHMM_one {c1 c3 c4 : Char} (rest : List Char)
    (h1 : isDigitChar c1 = true) (h3 : isDigitChar c3 = true)
    (h4 : isDigitChar c4 = true) :
    matchHMM (c1 :: ':' :: c3 :: c4 :: rest) = some ([c1], [c3, c4], rest) := by
  have hcolon : isDigitChar ':' = false := by decide
  simp [matchHMM, matchHMM.matchColonMM, h1, h3, h4, hcolon]

lemma matchHMM_two {c1 c2 c3 c4 : Char} (rest : List Char)
    (h1 : isDigitChar c1 = true) (h2 : isDigitChar c2 = true)
    (h3 : isDigitChar c3 = true) (h4 : isDigitChar c4 = true) :
    matchHMM (c1 :: c2 :: ':' :: c3 :: c4 :: rest) = some ([c1, c2], [c3, c4], rest) := by
  simp [matchHMM, matchHMM.matchColonMM, h1, h2, h3, h4]

lemma matchAmPmTail_ws {ws : List Char} (hws : ws.all isWsChar = true) {a m : Char}
    (ha : isWsChar a = false)
    (hcond : ((a = 'A' || a = 'a' || a = 'P' || a = 'p') &&
      (m = 'M' || m = 'm')) = true) :
    matchAmPmTail (ws ++ [a, m]) = true := by
  unfold matchAmPmTail
  rw [dropWhile_all_append hws, List.dropWhile_cons_of_neg (by simp [ha])]
  simpa using hcond

lemma containsTimeAmPm_of_head {cs : List Char} (hne : cs ≠ [])
    (h : matchTimeAmPmAt cs = true) : containsTimeAmPm cs = true := by
  rcases cs with _ | ⟨c, t⟩
  · exact absurd rfl hne
  · simp [containsTimeAmPm, h]

lemma matchColonMM_inv {cs : List Char} {mm rest : List Char}
    (h : matchHMM.matchColonMM cs = some (mm, rest)) :
    cs = ':' :: (mm ++ rest) := by
  unfold matchHMM.matchColonMM at h
  split at h
  · split at h
    · injection h with h'
      injection h' with hmm hrest
      subst hmm
      subst hrest
      rfl
    · exact absurd h (by simp)
  · exact absurd h (by simp)

lemma matchHMM_inv {cs hd mm rest : List Char}
    (h : matchHMM cs = some (hd, mm, rest)) :
    cs = hd ++ ':' :: (mm ++ rest) := by
  rcases cs with _ | ⟨c1, rest1⟩
  · exact absurd h (by simp [matchHMM])
  rcases rest1 with _ | ⟨c2, rest2⟩
  · by_cases h1 : isDigitChar c1 <;> simp [matchHMM, h1] at h
  simp only [matchHMM] at h
  by_cases h1 : isDigitChar c1
  swap
  · rw [if_neg h1] at h
    exact absurd h (by simp)
  rw [if_pos h1] at h
  by_cases h2 : isDigitChar c2
  · rw [if_pos h2] at h
    rcases hc : matchHMM.matchColonMM rest2 with _ | ⟨mm0, r0⟩
    · rw [hc] at h
      rcases hc2 : matchHMM.matchColonMM (c2 :: rest2) with _ | ⟨mm1, r1⟩
      · rw [hc2] at h
        exact absurd h (by simp)
      · rw [hc2] at h
        injection h with h3
        injection h3 with hhd h4
        injection h4 with hmm hrest
        subst hhd; subst hmm; subst hrest
        rw [matchColonMM_inv hc2]
        rfl
    · rw [hc] at h
      injection h with h3
      injection h3 with hhd h4
      injection h4 with hmm hrest
      subst hhd; subst hmm; subst hrest
      rw [matchColonMM_inv hc]
      rfl
  · rw [if_neg h2] at h
    rcases hc2 : matchHMM.matchColonMM (c2 :: rest2) with _ | ⟨mm1, r1⟩
    · rw [hc2] at h
      exact absurd h (by simp)
    · rw [hc2] at h
      injection h with h3
      injection h3 with hhd h4
      injection h4 with hmm hrest
      subst hhd; subst hmm; subst hrest
      rw [matchColonMM_inv hc2]
      rfl

lemma mem_of_matchAmPmTail {rest : List Char} (h : matchAmPmTail rest = true) :
    ∃ x ∈ rest, x = 'A' ∨ x = 'a' ∨ x = 'P' ∨ x = 'p' := by
  unfold matchAmPmTail at h
  rcases hdrop : rest.dropWhile isWsChar with _ | ⟨a, t⟩
  · rw [hdrop] at h
    exact absurd h (by simp)
  rcases t with _ | ⟨m, t2⟩
  · rw [hdrop] at h
    exact absurd h (by simp)
  rw [hdrop] at h
  have hamem : a ∈ rest := by
    have hsub := List.dropWhile_sublist (l := rest) (p := isWsChar)
    exact hsub.subset (by rw [hdrop]; exact List.mem_cons_self _ _)
  refine ⟨a, hamem, ?_⟩
  simp only [Bool.and_eq_true, Bool.or_eq_true, decide_eq_true_eq] at h
  tauto

lemma contains_implies_letter (cs : List Char) (h : containsTimeAmPm cs = true) :
    ∃ x ∈ cs, x = 'A' ∨ x = 'a' ∨ x = 'P' ∨ x = 'p' := by
  induction cs with
  | nil => simp [containsTimeAmPm] at h
  | cons c t ih =>
    rw [containsTimeAmPm, Bool.or_eq_true] at h
    rcases h with hat | hrec
    · unfold matchTimeAmPmAt at hat
      rcases hm : matchHMM (c :: t) with _ | ⟨hd0, mm0, rest0⟩
      · rw [hm] at hat
        exact absurd hat (by simp)
      · rw [hm] at hat
        obtain ⟨x, hx, hxl⟩ := mem_of_matchAmPmTail hat
        refine ⟨x, ?_, hxl⟩
        rw [matchHMM_inv hm]
        simp only [List.mem_append, List.mem_cons]
        tauto
    · obtain ⟨x, hx, hxl⟩ := ih hrec
      exact ⟨x, List.mem_cons_of_mem _ hx, hxl⟩

lemma containsTimeAmPm_false_of_no_letter {cs : List Char}
    (h : ∀ x ∈ cs, isDigitChar x = true ∨ x = ':') :
    containsTimeAmPm cs = false := by
  by_contra hc
  rw [Bool.not_eq_false] at hc
  obtain ⟨x, hx, hxl⟩ := contains_implies_letter cs hc
  rcases h x hx with hdig | rfl
  · rcases hxl with rfl | rfl | rfl | rfl <;> exact absurd hdig (by decide)
  · rcases hxl with h' | h' | h' | h' <;> exact absurd h' (by decide)

lemma searchHMM_head {cs : List Char} {r : List Char × List Char × List Char}
    (hne : cs ≠ []) (h : matchHMM cs = some r) : searchHMM cs = some r := by
  rcases cs with _ | ⟨c, t⟩
  · exact absurd rfl hne
  · simp [searchHMM, h]

lemma convHour_bounds {h : Nat} (hle : h ≤ 23) :
    1 ≤ convHour h ∧ convHour h ≤ 12 := by
  unfold convHour
  split_ifs <;> omega

lemma outTimePattern_build {h' : Nat} (hge : 1 ≤ h') (hle : h' ≤ 12)
    {c3 c4 : Char} (hc3 : isDigitChar c3 = true) (hc4 : isDigitChar c4 = true)
    {ap : List Char} (hap : ap = ['A', 'M'] ∨ ap = ['P', 'M']) :
    outTimePattern (String.mk (natToChars h' ++ ':' :: (c3 :: c4 :: ' ' :: ap))) = true := by
  have e1 : natToChars 1 = ['1'] := by decide
  have e2 : natToChars 2 = ['2'] := by decide
  have e3 : natToChars 3 = ['3'] := by decide
  have e4 : natToChars 4 = ['4'] := by decide
  have e5 : natToChars 5 = ['5'] := by decide
  have e6 : natToChars 6 = ['6'] := by decide
  have e7 : natToChars 7 = ['7'] := by decide
  have e8 : natToChars 8 = ['8'] := by decide
  have e9 : natToChars 9 = ['9'] := by decide
  have e10 : natToChars 10 = ['1', '0'] := by decide
  have e11 : natToChars 11 = ['1', '1'] := by decide
  have e12 : natToChars 12 = ['1', '2'] := by decide
  rcases hap with rfl | rfl <;>
    (interval_cases h' <;>
      simp [outTimePattern, e1, e2, e3, e4, e5, e6, e7, e8, e9, e10, e11, e12, hc3, hc4] <;>
      decide)

/-- C6: `formatTime` returns any string wholly matching the 12-hour
`H:MM AM/PM` pattern (case-insensitive) uppercased; any string wholly matching
a 24-hour `H:MM` pattern (hour at most 23) is converted — hour 0 to 12,
hours 13 to 23 to hour minus 12, hours 1 to 12 unchanged, with suffix AM when
the original hour is below 12 and PM otherwise — and the output matches
`^\d{1,2}:\d{2} (AM|PM)$`; in particular `00:00` gives `12:00 AM`, `12:00`
gives `12:00 PM` and `23:45` gives `11:45 PM`. -/
theorem formatTime_spec :
    (∀ (hd mm ws : List Char) (a m : Char),
        (hd.length = 1 ∨ hd.length = 2) → hd.all isDigitChar = true →
        mm.length = 2 → mm.all isDigitChar = true →
        ws.all isWsChar = true →
        (a = 'A' ∨ a = 'a' ∨ a = 'P' ∨ a = 'p') → (m = 'M' ∨ m = 'm') →
        formatTime (some (String.mk (hd ++ ':' :: (mm ++ ws ++ [a, m])))) =
          String.mk ((hd ++ ':' :: (mm ++ ws ++ [a, m])).map toUpperChar)) ∧
    (∀ hd mm : List Char,
        (hd.length = 1 ∨ hd.length = 2) → hd.all isDigitChar = true →
        mm.length = 2 → mm.all isDigitChar = true →
        parseIntChars hd ≤ 23 →
        formatTime (some (String.mk (hd ++ ':' :: mm))) =
          String.mk (natToChars (convHour (parseIntChars hd)) ++ ':' ::
            (mm ++ ' ' :: (if parseIntChars hd < 12 then ['A', 'M'] else ['P', 'M']))) ∧
        outTimePattern (formatTime (some (String.mk (hd ++ ':' :: mm)))) = true) ∧
    formatTime (some "00:00") = "12:00 AM" ∧
    formatTime (some "12:00") = "12:00 PM" ∧
    formatTime (some "23:45") = "11:45 PM" := by
  refine ⟨?_, ?_, by decide, by decide, by decide⟩
  · intro hd mm ws a m hlen hdig hmlen hmdig hws ha hm
    obtain ⟨c3, c4, rfl⟩ := List.length_eq_two.mp hmlen
    simp only [List.all_cons, List.all_nil, Bool.and_true, Bool.and_eq_true] at hmdig
    obtain ⟨hc3, hc4⟩ := hmdig
    have ha' : isWsChar a = false := by
      rcases ha with rfl | rfl | rfl | rfl <;> decide
    have hm' : isWsChar m = false := by
      rcases hm with rfl | rfl <;> decide
    have hcond : ((a = 'A' || a = 'a' || a = 'P' || a = 'p') &&
        (m = 'M' || m = 'm')) = true := by
      rcases ha with rfl | rfl | rfl | rfl <;> rcases hm with rfl | rfl <;> decide
    have htail := matchAmPmTail_ws hws ha' hcond
    rcases hlen with h1 | h2
    · obtain ⟨c1, rfl⟩ := List.length_eq_one.mp h1
      simp only [List.all_cons, List.all_nil, Bool.and_true] at hdig
      simp only [List.cons_append, List.nil_append]
      have hmatch := matchHMM_one (ws ++ [a, m]) hdig hc3 hc4
      have hat : matchTimeAmPmAt (c1 :: ':' :: c3 :: c4 :: (ws ++ [a, m])) = true := by
        unfold matchTimeAmPmAt
        rw [hmatch]
        exact htail
      have hcont := containsTimeAmPm_of_head (by simp) hat
      have htrim : jsTrim (c1 :: ':' :: c3 :: c4 :: (ws ++ [a, m])) =
          c1 :: ':' :: c3 :: c4 :: (ws ++ [a, m]) := by
        have hshape : c1 :: ':' :: c3 :: c4 :: (ws ++ [a, m]) =
            c1 :: ((':' :: c3 :: c4 :: (ws ++ [a])) ++ [m]) := by simp
        rw [hshape]
        exact jsTrim_cons_concat _ (isWsChar_of_digit hdig) hm'
      simp only [formatTime, htrim, hcont, if_true]
    · obtain ⟨c1, c2, rfl⟩ := List.length_eq_two.mp h2
      simp only [List.all_cons, List.all_nil, Bool.and_true, Bool.and_eq_true] at hdig
      obtain ⟨hd1, hd2⟩ := hdig
      simp only [List.cons_append, List.nil_append]
      have hmatch := matchHMM_two (ws ++ [a, m]) hd1 hd2 hc3 hc4
      have hat : matchTimeAmPmAt (c1 :: c2 :: ':' :: c3 :: c4 :: (ws ++ [a, m])) = true := by
        unfold matchTimeAmPmAt
        rw [hmatch]
        exact htail
      have hcont := containsTimeAmPm_of_head (by simp) hat
      have htrim : jsTrim (c1 :: c2 :: ':' :: c3 :: c4 :: (ws ++ [a, m])) =
          c1 :: c2 :: ':' :: c3 :: c4 :: (ws ++ [a, m]) := by
        have hshape : c1 :: c2 :: ':' :: c3 :: c4 :: (ws ++ [a, m]) =
            c1 :: ((c2 :: ':' :: c3 :: c4 :: (ws ++ [a])) ++ [m]) := by simp
        rw [hshape]
        exact jsTrim_cons_concat _ (isWsChar_of_digit hd1) hm'
      simp only [formatTime, htrim, hcont, if_true]
  · intro hd mm hlen hdig hmlen hmdig hle
    obtain ⟨c3, c4, rfl⟩ := List.length_eq_two.mp hmlen
    simp only [List.all_cons, List.all_nil, Bool.and_true, Bool.and_eq_true] at hmdig
    obtain ⟨hc3, hc4⟩ := hmdig
    rcases hlen with h1 | h2
    · obtain ⟨c1, rfl⟩ := List.length_eq_one.mp h1
      simp only [List.all_cons, List.all_nil, Bool.and_true] at hdig
      simp only [List.cons_append, List.nil_append]
      have hmatch := matchHMM_one [] hdig hc3 hc4
      have hnol : ∀ x ∈ (c1 :: ':' :: c3 :: c4 :: ([] : List Char)),
          isDigitChar x = true ∨ x = ':' := by
        intro x hx
        simp only [List.mem_cons, List.not_mem_nil, or_false] at hx
        rcases hx with rfl | rfl | rfl | rfl
        · exact Or.inl hdig
        · exact Or.inr rfl
        · exact Or.inl hc3
        · exact Or.inl hc4
      have hcont := containsTimeAmPm_false_of_no_letter hnol
      have htrim : jsTrim (c1 :: ':' :: c3 :: c4 :: ([] : List Char)) =
          c1 :: ':' :: c3 :: c4 :: [] := by
        have hshape : (c1 :: ':' :: c3 :: c4 :: ([] : List Char)) =
            c1 :: ((':' :: [c3]) ++ [c4]) := by simp
        rw [hshape]
        exact jsTrim_cons_concat _ (isWsChar_of_digit hdig) (isWsChar_of_digit hc4)
      have hsearch := searchHMM_head (by simp) hmatch
      have hhour : (if parseIntChars [c1] = 0 then 12
          else if 12 < parseIntChars [c1] then parseIntChars [c1] - 12
          else parseIntChars [c1]) = convHour (parseIntChars [c1]) := by
        unfold convHour
        split_ifs <;> omega
      have hampm : (if 12 ≤ parseIntChars [c1] then (['P', 'M'] : List Char)
          else ['A', 'M']) =
          (if parseIntChars [c1] < 12 then (['A', 'M'] : List Char) else ['P', 'M']) := by
        split_ifs <;> first | rfl | omega
      have hval : formatTime (some (String.mk (c1 :: ':' :: c3 :: c4 :: []))) =
          String.mk (natToChars (convHour (parseIntChars [c1])) ++ ':' ::
            (c3 :: c4 :: ' ' ::
              (if parseIntChars [c1] < 12 then ['A', 'M'] else ['P', 'M']))) := by
        simp only [formatTime, htrim, hcont, Bool.false_eq_true, if_false, hsearch,
          hhour, hampm]
        simp
      obtain ⟨hb1, hb2⟩ := convHour_bounds hle
      refine ⟨?_, ?_⟩
      · exact hval
      · rw [hval]
        exact outTimePattern_build hb1 hb2 hc3 hc4 (by split_ifs <;> simp)
    · obtain ⟨c1, c2, rfl⟩ := List.length_eq_two.mp h2
      simp only [List.all_cons, List.all_nil, Bool.and_true, Bool.and_eq_true] at hdig
      obtain ⟨hd1, hd2⟩ := hdig
      simp only [List.cons_append, List.nil_append]
      have hmatch := matchHMM_two [] hd1 hd2 hc3 hc4
      have hnol : ∀ x ∈ (c1 :: c2 :: ':' :: c3 :: c4 :: ([] : List Char)),
          isDigitChar x = true ∨ x = ':' := by
        intro x hx
        simp only [List.mem_cons, List.not_mem_nil, or_false] at hx
        rcases hx with rfl | rfl | rfl | rfl | rfl
        · exact Or.inl hd1
        · exact Or.inl hd2
        · exact Or.inr rfl
        · exact Or.inl hc3
        · exact Or.inl hc4
      have hcont := containsTimeAmPm_false_of_no_letter hnol
      have htrim : jsTrim (c1 :: c2 :: ':' :: c3 :: c4 :: ([] : List Char)) =
          c1 :: c2 :: ':' :: c3 :: c4 :: [] := by
        have hshape : (c1 :: c2 :: ':' :: c3 :: c4 :: ([] : List Char)) =
            c1 :: ((c2 :: ':' :: [c3]) ++ [c4]) := by simp
        rw [hshape]
        exact jsTrim_cons_concat _ (isWsChar_of_digit hd1) (isWsChar_of_digit hc4)
      have hsearch := searchHMM_head (by simp) hmatch
      have hhour : (if parseIntChars [c1, c2] = 0 then 12
          else if 12 < parseIntChars [c1, c2] then parseIntChars [c1, c2] - 12
          else parseIntChars [c1, c2]) = convHour (parseIntChars [c1, c2]) := by
        unfold convHour
        split_ifs <;> omega
      have hampm : (if 12 ≤ parseIntChars [c1, c2] then (['P', 'M'] : List Char)
          else ['A', 'M']) =
          (if parseIntChars [c1, c2] < 12 then (['A', 'M'] : List Char)
            else ['P', 'M']) := by
        split_ifs <;> first | rfl | omega
      have hval : formatTime (some (String.mk (c1 :: c2 :: ':' :: c3 :: c4 :: []))) =
          String.mk (natToChars (convHour (parseIntChars [c1, c2])) ++ ':' ::
            (c3 :: c4 :: ' ' ::
              (if parseIntChars [c1, c2] < 12 then ['A', 'M'] else ['P', 'M']))) := by
        simp only [formatTime, htrim, hcont, Bool.false_eq_true, if_false, hsearch,
          hhour, hampm]
        simp
      obtain ⟨hb1, hb2⟩ := convHour_bounds hle
      refine ⟨?_, ?_⟩
      · exact hval
      · rw [hval]
        exact outTimePattern_build hb1 hb2 hc3 hc4 (by split_ifs <;> simp)

/-- C6 (witness): the formatTime specification instantiated on the concrete
inputs `3:30 pm` (12-hour branch) and `14:30` (24-hour branch). -/
theorem formatTime_spec_witness :
    ((['3'] : List Char).length = 1 ∧ (['3'] : List Char).all isDigitChar = true ∧
      (['3', '0'] : List Char).length = 2 ∧
      (['3', '0'] : List Char).all isDigitChar = true ∧
      ([' '] : List Char).all isWsChar = true ∧
      formatTime (some (String.mk (['3'] ++ ':' :: (['3', '0'] ++ [' '] ++ ['p', 'm'])))) =
        String.mk ((['3'] ++ ':' :: (['3', '0'] ++ [' '] ++ ['p', 'm'])).map toUpperChar)) ∧
    (parseIntChars ['1', '4'] ≤ 23 ∧
      formatTime (some (String.mk (['1', '4'] ++ ':' :: ['3', '0']))) =
        String.mk (natToChars (convHour (parseIntChars ['1', '4'])) ++ ':' ::
          (['3', '0'] ++ ' ' ::
            (if parseIntChars ['1', '4'] < 12 then ['A', 'M'] else ['P', 'M']))) ∧
      outTimePattern (formatTime (some (String.mk (['1', '4'] ++ ':' :: ['3', '0'])))) = true) :=
  ⟨⟨rfl, by decide, rfl, by decide, by decide,
    formatTime_spec.1 ['3'] ['3', '0'] [' '] 'p' 'm' (Or.inl rfl) (by decide) rfl
      (by decide) (by decide) (by decide) (by decide)⟩,
   ⟨by decide,
    (formatTime_spec.2.1 ['1', '4'] ['3', '0'] (Or.inr rfl) (by decide) rfl
      (by decide) (by decide)).1,
    (formatTime_spec.2.1 ['1', '4'] ['3', '0'] (Or.inr rfl) (by decide) rfl
      (by decide) (by decide)).2⟩⟩
